import Mathlib

/-!
Verification of the step-sequencer core of the 16-bit music loop tool.

The embedding follows `js/sequencer.js` (class `Sequencer`) and the
`AudioEngine` class shipped alongside it.  Machine numbers passed for
row/step indices are modelled as `Int` (JS numbers used as integral
indices); the JS `%` operator on integers is truncated remainder, i.e.
`Int.tmod`.  The `activeStepsCache` JS `Map` is modelled as a total
function `Nat → List Nat` where the empty list stands for "no entry"
(the code never stores an empty array: it deletes the key instead, and
the only reader treats a missing entry like an empty one).
-/

/-- Tone.js time values as they appear in the sequencer: either
`Tone.now()` (the instant of the call) or an absolute scheduler time
passed into `onStep`. -/
inductive Time where
  | now : Time
  | sched : Int → Time
deriving DecidableEq, Repr

/-- A candidate row of a pattern handed to `setPattern`: either a JS
array of booleans or some non-array value. -/
inductive JRow where
  | arr : List Bool → JRow
  | notArr : JRow
deriving DecidableEq, Repr

/-- A candidate pattern handed to `setPattern`: either a JS array of
rows or some non-array value. -/
inductive JPattern where
  | arr : List JRow → JPattern
  | notArr : JPattern
deriving DecidableEq, Repr

/-- `this.numRows = 8` in the `Sequencer` constructor. -/
def numRows : Nat := 8

/-- `this.numSteps = 16` in the `Sequencer` constructor. -/
def numSteps : Nat := 16

/-- State of the `AudioEngine` class (from `audio.js`): the
`initialized` and `isPlaying` flags, the stored `tempo`, and the state
pushed to the ambient `Tone.Transport` (whether `Transport.start()` has
been called, and `Transport.bpm.value`). -/
structure AudioEngine where
  initialized : Bool
  isPlaying : Bool
  tempo : Int
  transportStarted : Bool
  transportBpm : Int
deriving DecidableEq, Repr

namespace AudioEngine

/-- The `AudioEngine` constructor: not initialized, not playing,
default tempo 120. -/
def mkEngine : AudioEngine :=
  { initialized := false, isPlaying := false, tempo := 120
  , transportStarted := false, transportBpm := 120 }

/-- The state-relevant effect of a successful `AudioEngine.init()`:
the transport bpm is set to the stored tempo and `initialized` is set. -/
def initDone (e : AudioEngine) : AudioEngine :=
  { e with transportBpm := e.tempo, initialized := true }

/-- `AudioEngine.start()`: `if (!this.initialized) return;` then
`Tone.Transport.start(); this.isPlaying = true;`. -/
def start (e : AudioEngine) : AudioEngine :=
  if e.initialized then { e with transportStarted := true, isPlaying := true } else e

/-- `AudioEngine.stop()`: `if (!this.initialized) return;` then
`Tone.Transport.stop(); this.isPlaying = false;`. -/
def stop (e : AudioEngine) : AudioEngine :=
  if e.initialized then { e with transportStarted := false, isPlaying := false } else e

/-- `AudioEngine.setTempo(bpm)`: `if (!this.initialized) return;` then
`this.tempo = bpm; Tone.Transport.bpm.value = bpm;`.  No validation of
`bpm` is performed. -/
def setTempo (e : AudioEngine) (bpm : Int) : AudioEngine :=
  if e.initialized then { e with tempo := bpm, transportBpm := bpm } else e

end AudioEngine

/-- State of the `Sequencer` class: current step (`-1` when stopped),
the 8×16 boolean grid (as a function, total over `Nat` indices; cells
outside the configured range are never written and stay `false`), the
active-steps cache, the `isPlaying` flag and the referenced engine. -/
structure Sequencer where
  currentStep : Int
  grid : Nat → Nat → Bool
  activeStepsCache : Nat → List Nat
  isPlaying : Bool
  engine : AudioEngine

namespace Sequencer

/-- The `Sequencer` constructor: step `-1`, all-false grid, empty
cache, not playing. -/
def mkSequencer (e : AudioEngine) : Sequencer :=
  { currentStep := -1, grid := fun _ _ => false
  , activeStepsCache := fun _ => [], isPlaying := false, engine := e }

/-- Pointwise update of one grid cell (`this.grid[row][step] = v`). -/
def setCell (g : Nat → Nat → Bool) (row step : Nat) (v : Bool) : Nat → Nat → Bool :=
  fun r s => if r = row ∧ s = step then v else g r s

/-- `updateActiveStepsCache()`: clear the cache, then for each step
`0..15` collect the rows `0..7` whose cell is true (in increasing row
order), storing the list when non-empty.  An empty collection leaves no
entry, which the model renders as `[]`. -/
def updateActiveStepsCache (g : Nat → Nat → Bool) : Nat → List Nat :=
  fun step =>
    if step < numSteps then (List.range numRows).filter (fun row => g row step) else []

/-- `updateActiveStepCache(row, step)`: incremental single-cell cache
patch.  If the cell is active, append `row` unless already present; if
inactive, filter `row` out (deleting the entry when the result is
empty, i.e. storing `[]`). -/
def updateActiveStepCache (g : Nat → Nat → Bool) (c : Nat → List Nat)
    (row step : Nat) : Nat → List Nat :=
  if g row step then
    if row ∈ c step then c
    else Function.update c step (c step ++ [row])
  else
    Function.update c step ((c step).filter (fun r => r ≠ row))

/-- `toggleStep(row, step)`: in range, flip the cell, patch the cache,
and if playing at exactly this step with the cell now active, call
`audioEngine.scheduleNote(row, Tone.now())`.  Returns the new cell
value (out of range: `false`), the new state, and the list of
`scheduleNote` calls made. -/
def toggleStep (s : Sequencer) (row step : Int) : Bool × Sequencer × List (Nat × Time) :=
  if 0 ≤ row ∧ row < (numRows : Int) ∧ 0 ≤ step ∧ step < (numSteps : Int) then
    let r := row.toNat
    let st := step.toNat
    let g' := setCell s.grid r st (!(s.grid r st))
    let c' := updateActiveStepCache g' s.activeStepsCache r st
    let calls := if s.isPlaying ∧ s.currentStep = step ∧ g' r st then [(r, Time.now)] else []
    (g' r st, { s with grid := g', activeStepsCache := c' }, calls)
  else
    (false, s, [])

/-- `setStep(row, step, state)`: in range, write the cell and patch the
cache; out of range, do nothing. -/
def setStep (s : Sequencer) (row step : Int) (state : Bool) : Sequencer :=
  if 0 ≤ row ∧ row < (numRows : Int) ∧ 0 ≤ step ∧ step < (numSteps : Int) then
    let r := row.toNat
    let st := step.toNat
    let g' := setCell s.grid r st state
    { s with grid := g', activeStepsCache := updateActiveStepCache g' s.activeStepsCache r st }
  else s

/-- `getStep(row, step)`: in range, the cell value; out of range,
`false`. -/
def getStep (s : Sequencer) (row step : Int) : Bool :=
  if 0 ≤ row ∧ row < (numRows : Int) ∧ 0 ≤ step ∧ step < (numSteps : Int) then
    s.grid row.toNat step.toNat
  else false

/-- `clearGrid()`: all-false grid, cache cleared. -/
def clearGrid (s : Sequencer) : Sequencer :=
  { s with grid := fun _ _ => false, activeStepsCache := fun _ => [] }

/-- `setPattern(pattern)`: if the argument is an array of exactly
`numRows` rows, copy every row that is itself an array of exactly
`numSteps` cells (leaving mismatched rows as they were) and rebuild the
whole cache; otherwise do nothing. -/
def setPattern (s : Sequencer) (p : JPattern) : Sequencer :=
  match p with
  | .notArr => s
  | .arr rows =>
    if rows.length = numRows then
      let g' : Nat → Nat → Bool := fun r st =>
        match rows.getD r .notArr with
        | .arr cells => if cells.length = numSteps then cells.getD st false else s.grid r st
        | .notArr => s.grid r st
      { s with grid := g', activeStepsCache := updateActiveStepsCache g' }
    else s

/-- `onStep(time)`: advance `currentStep` by one modulo `numSteps`
(JS `%` = truncated remainder), call `scheduleNote(row, time)` for each
cached row of the new step in the cached order, then dispatch one
`sequencer:step` event carrying the new `currentStep`.  Returns the new
state, the `scheduleNote` calls, and the dispatched step events. -/
def onStep (s : Sequencer) (t : Time) : Sequencer × List (Nat × Time) × List Int :=
  let cur := (s.currentStep + 1).tmod (numSteps : Int)
  let activeRows := s.activeStepsCache cur.toNat
  ({ s with currentStep := cur }, activeRows.map (fun row => (row, t)), [cur])

/-- `start()`: `this.audioEngine.start(); this.isPlaying = true;` —
unconditionally. -/
def start (s : Sequencer) : Sequencer :=
  { s with engine := s.engine.start, isPlaying := true }

/-- `stop()`: stop the engine, clear `isPlaying`, reset `currentStep`
to `-1` and dispatch one final step event (carrying `-1`). -/
def stop (s : Sequencer) : Sequencer × List Int :=
  ({ s with engine := s.engine.stop, isPlaying := false, currentStep := -1 }, [-1])

/-- `setTempo(bpm)`: delegate to the engine. -/
def setTempo (s : Sequencer) (bpm : Int) : Sequencer :=
  { s with engine := s.engine.setTempo bpm }

/-- `isSequencerPlaying()`. -/
def isSequencerPlaying (s : Sequencer) : Bool := s.isPlaying

/-- `getCurrentStep()`. -/
def getCurrentStep (s : Sequencer) : Int := s.currentStep

end Sequencer

/-- One grid-editing call, for stating properties over arbitrary finite
call sequences. -/
inductive Op where
  | toggle (row step : Int)
  | set (row step : Int) (state : Bool)
  | clear
  | pattern (p : JPattern)

/-- Apply one grid-editing call to a sequencer state. -/
def applyOp (s : Sequencer) : Op → Sequencer
  | .toggle row step => (s.toggleStep row step).2.1
  | .set row step state => s.setStep row step state
  | .clear => s.clearGrid
  | .pattern p => s.setPattern p

/-- Apply a finite sequence of grid-editing calls, left to right. -/
def applyOps (s : Sequencer) (ops : List Op) : Sequencer := ops.foldl applyOp s

/-- The active-step index invariant: for every step, the cache entry
contains a row exactly when the corresponding grid cell is true. -/
def IndexConsistent (s : Sequencer) : Prop :=
  ∀ r st, r ∈ s.activeStepsCache st ↔ s.grid r st = true

/-- Grid cells outside the configured 8×16 range are false (the code
never writes them). -/
def GridBounded (s : Sequencer) : Prop :=
  ∀ r st, numRows ≤ r ∨ numSteps ≤ st → s.grid r st = false

theorem setCell_apply (g : Nat → Nat → Bool) (row step : Nat) (v : Bool) (r s : Nat) :
    Sequencer.setCell g row step v r s = if r = row ∧ s = step then v else g r s := rfl

theorem mem_updateActiveStepCache (g : Nat → Nat → Bool) (c : Nat → List Nat)
    (row step r st : Nat) :
    r ∈ Sequencer.updateActiveStepCache g c row step st ↔
      (if st = step ∧ r = row then g row step = true else r ∈ c st) := by
  unfold Sequencer.updateActiveStepCache
  by_cases hg : g row step = true
  · rw [if_pos hg]
    by_cases hm : row ∈ c step
    · rw [if_pos hm]
      by_cases hst : st = step
      · subst hst
        by_cases hr : r = row
        · subst hr; simp [hm, hg]
        · simp [hr]
      · simp [hst]
    · rw [if_neg hm]
      rw [Function.update_apply]
      by_cases hst : st = step
      · subst hst
        simp only [if_true, List.mem_append, List.mem_singleton]
        by_cases hr : r = row
        · subst hr; simp [hg]
        · simp [hr]
      · simp [hst]
  · rw [if_neg hg]
    rw [Function.update_apply]
    by_cases hst : st = step
    · subst hst
      simp only [if_true, List.mem_filter, decide_eq_true_eq]
      by_cases hr : r = row
      · subst hr
        simp [hg]
      · simp [hr]
    · simp [hst]

theorem mem_updateActiveStepsCache (g : Nat → Nat → Bool) (r st : Nat) :
    r ∈ Sequencer.updateActiveStepsCache g st ↔
      st < numSteps ∧ r < numRows ∧ g r st = true := by
  unfold Sequencer.updateActiveStepsCache
  by_cases h : st < numSteps <;>
    simp [h, List.mem_filter, List.mem_range]

theorem inv_toggleStep (s : Sequencer) (row step : Int)
    (h1 : IndexConsistent s) (h2 : GridBounded s) :
    IndexConsistent (s.toggleStep row step).2.1 ∧ GridBounded (s.toggleStep row step).2.1 := by
  unfold Sequencer.toggleStep
  by_cases hrange : 0 ≤ row ∧ row < (numRows : Int) ∧ 0 ≤ step ∧ step < (numSteps : Int)
  · rw [if_pos hrange]
    have hr : row.toNat < numRows := by
      simp only [numRows] at hrange ⊢; omega
    have hst : step.toNat < numSteps := by
      simp only [numSteps] at hrange ⊢; omega
    constructor
    · intro r' st'
      simp only
      rw [mem_updateActiveStepCache]
      by_cases hc : st' = step.toNat ∧ r' = row.toNat
      · rw [if_pos hc]
        rw [hc.1, hc.2]
      · rw [if_neg hc]
        rw [setCell_apply, if_neg (fun hx => hc ⟨hx.2, hx.1⟩)]
        exact h1 r' st'
    · intro r' st' hout
      simp only
      rw [setCell_apply, if_neg]
      · exact h2 r' st' hout
      · rintro ⟨hx1, hx2⟩
        rcases hout with h | h
        · omega
        · omega
  · rw [if_neg hrange]
    exact ⟨h1, h2⟩

theorem inv_setStep (s : Sequencer) (row step : Int) (state : Bool)
    (h1 : IndexConsistent s) (h2 : GridBounded s) :
    IndexConsistent (s.setStep row step state) ∧ GridBounded (s.setStep row step state) := by
  unfold Sequencer.setStep
  by_cases hrange : 0 ≤ row ∧ row < (numRows : Int) ∧ 0 ≤ step ∧ step < (numSteps : Int)
  · rw [if_pos hrange]
    have hr : row.toNat < numRows := by
      simp only [numRows] at hrange ⊢; omega
    have hst : step.toNat < numSteps := by
      simp only [numSteps] at hrange ⊢; omega
    constructor
    · intro r' st'
      simp only
      rw [mem_updateActiveStepCache]
      by_cases hc : st' = step.toNat ∧ r' = row.toNat
      · rw [if_pos hc]
        rw [hc.1, hc.2]
      · rw [if_neg hc]
        rw [setCell_apply, if_neg (fun hx => hc ⟨hx.2, hx.1⟩)]
        exact h1 r' st'
    · intro r' st' hout
      simp only
      rw [setCell_apply, if_neg]
      · exact h2 r' st' hout
      · rintro ⟨hx1, hx2⟩
        rcases hout with h | h
        · omega
        · omega
  · rw [if_neg hrange]
    exact ⟨h1, h2⟩

theorem inv_clearGrid (s : Sequencer) :
    IndexConsistent s.clearGrid ∧ GridBounded s.clearGrid := by
  constructor
  · intro r st
    simp [Sequencer.clearGrid]
  · intro r st _
    rfl

theorem inv_setPattern (s : Sequencer) (p : JPattern)
    (h1 : IndexConsistent s) (h2 : GridBounded s) :
    IndexConsistent (s.setPattern p) ∧ GridBounded (s.setPattern p) := by
  cases p with
  | notArr => exact ⟨h1, h2⟩
  | arr rows =>
    unfold Sequencer.setPattern
    dsimp only
    by_cases hlen : rows.length = numRows
    · rw [if_pos hlen]
      have hb : GridBounded { s with
          grid := fun r st =>
            match rows.getD r .notArr with
            | .arr cells => if cells.length = numSteps then cells.getD st false else s.grid r st
            | .notArr => s.grid r st
          activeStepsCache := Sequencer.updateActiveStepsCache fun r st =>
            match rows.getD r .notArr with
            | .arr cells => if cells.length = numSteps then cells.getD st false else s.grid r st
            | .notArr => s.grid r st } := by
        intro r st hout
        simp only
        rcases hout with h | h
        · rw [List.getD_eq_default]
          · exact h2 r st (Or.inl h)
          · omega
        · cases hrow : rows.getD r .notArr with
          | notArr => exact h2 r st (Or.inr h)
          | arr cells =>
            dsimp only
            by_cases hc : cells.length = numSteps
            · rw [if_pos hc]
              apply List.getD_eq_default
              omega
            · rw [if_neg hc]
              exact h2 r st (Or.inr h)
      refine ⟨?_, hb⟩
      intro r st
      rw [mem_updateActiveStepsCache]
      constructor
      · rintro ⟨_, _, h⟩
        exact h
      · intro hg
        refine ⟨?_, ?_, hg⟩
      <;> by_contra hlt
      <;> rw [hb r st (by omega)] at hg
      <;> exact Bool.false_ne_true hg
    · rw [if_neg hlen]
      exact ⟨h1, h2⟩

theorem inv_applyOp (s : Sequencer) (op : Op)
    (h1 : IndexConsistent s) (h2 : GridBounded s) :
    IndexConsistent (applyOp s op) ∧ GridBounded (applyOp s op) := by
  cases op with
  | toggle row step => exact inv_toggleStep s row step h1 h2
  | set row step state => exact inv_setStep s row step state h1 h2
  | clear => exact inv_clearGrid s
  | pattern p => exact inv_setPattern s p h1 h2

theorem inv_applyOps (s : Sequencer) (ops : List Op)
    (h1 : IndexConsistent s) (h2 : GridBounded s) :
    IndexConsistent (applyOps s ops) ∧ GridBounded (applyOps s ops) := by
  induction ops generalizing s with
  | nil => exact ⟨h1, h2⟩
  | cons op rest ih =>
    have h := inv_applyOp s op h1 h2
    exact ih (applyOp s op) h.1 h.2

/-- C1: after any finite sequence of `toggleStep`/`setStep`/`clearGrid`/
`setPattern` calls from the freshly constructed sequencer, the
active-step index entry for a step `st` contains a row `r` exactly when
`grid[r][st]` is true (so a step with no active rows has nothing to
trigger). -/
theorem index_consistency_after_ops (e : AudioEngine) (ops : List Op) (r st : Nat) :
    r ∈ (applyOps (Sequencer.mkSequencer e) ops).activeStepsCache st ↔
      (applyOps (Sequencer.mkSequencer e) ops).grid r st = true := by
  have h0 : IndexConsistent (Sequencer.mkSequencer e) := by
    intro r st
    simp [Sequencer.mkSequencer]
  have h0' : GridBounded (Sequencer.mkSequencer e) := by
    intro r st _
    rfl
  exact (inv_applyOps (Sequencer.mkSequencer e) ops h0 h0').1 r st

/-- Iterate `onStep` `k` times from a state, collecting the dispatched
step events in order.  The callback time does not influence the step
sequence. -/
def iterOnStep (s : Sequencer) (t : Time) : Nat → Sequencer × List Int
  | 0 => (s, [])
  | k + 1 =>
    let p := iterOnStep s t k
    let q := p.1.onStep t
    (q.1, p.2 ++ q.2.2)

theorem tmod_sixteen_step (a : Int) (ha : 0 ≤ a) :
    (a.tmod 16 + 1).tmod 16 = (a + 1).tmod 16 := by
  have h1 : a.tmod 16 = a % 16 := Int.tmod_eq_emod ha (by norm_num)
  have h2 : 0 ≤ a % 16 := Int.emod_nonneg a (by norm_num)
  rw [h1, Int.tmod_eq_emod (by omega) (by norm_num),
    Int.tmod_eq_emod (by omega) (by norm_num)]
  omega

theorem iterOnStep_spec (s : Sequencer) (t : Time) (h : s.currentStep = -1) (k : Nat) :
    (iterOnStep s t k).1.currentStep
        = (if k = 0 then (-1 : Int) else ((k : Int) - 1).tmod (numSteps : Int)) ∧
      (iterOnStep s t k).2
        = (List.range k).map (fun i : Nat => (i : Int).tmod (numSteps : Int)) := by
  induction k with
  | zero => exact ⟨h, rfl⟩
  | succ k ih =>
    obtain ⟨ih1, ih2⟩ := ih
    have hcur : (iterOnStep s t (k + 1)).1.currentStep
        = ((iterOnStep s t k).1.currentStep + 1).tmod (numSteps : Int) := rfl
    have hev : (iterOnStep s t (k + 1)).2
        = (iterOnStep s t k).2
            ++ [((iterOnStep s t k).1.currentStep + 1).tmod (numSteps : Int)] := rfl
    have hstep : ((if k = 0 then (-1 : Int) else ((k : Int) - 1).tmod (numSteps : Int)) + 1).tmod
          (numSteps : Int) = ((k : Int)).tmod (numSteps : Int) := by
      by_cases hk : k = 0
      · subst hk
        decide
      · rw [if_neg hk]
        have hcast : ((numSteps : Nat) : Int) = 16 := rfl
        rw [hcast, tmod_sixteen_step ((k : Int) - 1) (by omega)]
        norm_num
    constructor
    · rw [hcur, ih1, hstep, if_neg (Nat.succ_ne_zero k)]
      norm_num
    · rw [hev, ih1, ih2, hstep, List.range_succ, List.map_append]
      rfl

/-- C2: starting from the stopped state (`currentStep = -1`), the k-th
invocation of `onStep` sets `currentStep` to `(k-1) mod 16` and emits
exactly one step-changed event carrying that index, so the observed
step sequence is `0,1,…,15,0,…` — starting at 0, increasing by one,
wrapping from 15 to 0, with no duplicates and no gaps. -/
theorem onStep_sequence_from_stopped (s : Sequencer) (t : Time) (k : Nat)
    (h : s.currentStep = -1) (hk : 1 ≤ k) :
    (iterOnStep s t k).1.currentStep = ((k : Int) - 1).tmod (numSteps : Int) ∧
      (iterOnStep s t k).2
        = (iterOnStep s t (k - 1)).2 ++ [((k : Int) - 1).tmod (numSteps : Int)] ∧
      (iterOnStep s t k).2
        = (List.range k).map (fun i : Nat => (i : Int).tmod (numSteps : Int)) := by
  obtain ⟨h1, h2⟩ := iterOnStep_spec s t h k
  refine ⟨by rw [h1, if_neg (by omega)], ?_, h2⟩
  obtain ⟨h1', h2'⟩ := iterOnStep_spec s t h (k - 1)
  rw [h2, h2']
  obtain ⟨k', rfl⟩ : ∃ k', k = k' + 1 := ⟨k - 1, by omega⟩
  rw [Nat.add_sub_cancel, List.range_succ, List.map_append]
  simp only [List.map_cons, List.map_nil]
  have hc : ((k' + 1 : Nat) : Int) - 1 = (k' : Int) := by push_cast; omega
  rw [hc]

/-- C10: `setPattern` with a non-array argument, or with an array whose
top-level length differs from the configured row count, changes nothing
at all: the grid and the active-step index are exactly as before. -/
theorem setPattern_top_mismatch_noop (s : Sequencer) (p : JPattern)
    (h : p = JPattern.notArr ∨ ∀ rows, p = JPattern.arr rows → rows.length ≠ numRows) :
    s.setPattern p = s := by
  cases p with
  | notArr => rfl
  | arr rows =>
    rcases h with h | h
    · exact JPattern.noConfusion h
    · unfold Sequencer.setPattern
      dsimp only
      rw [if_neg (h rows rfl)]

/-- Witness for C10 at a 0-row pattern against the fresh sequencer. -/
theorem setPattern_top_mismatch_noop_witness :
    (JPattern.arr ([] : List JRow) = JPattern.notArr ∨
      ∀ rows, JPattern.arr ([] : List JRow) = JPattern.arr rows → rows.length ≠ numRows) ∧
      (Sequencer.mkSequencer AudioEngine.mkEngine).setPattern (JPattern.arr [])
        = Sequencer.mkSequencer AudioEngine.mkEngine :=
  have hx : ∀ rows, JPattern.arr ([] : List JRow) = JPattern.arr rows →
      rows.length ≠ numRows := by
    intro rows h
    cases h
    decide
  ⟨Or.inr hx,
    setPattern_top_mismatch_noop (Sequencer.mkSequencer AudioEngine.mkEngine)
      (JPattern.arr []) (Or.inr hx)⟩

/-- C8: out-of-range row/step indices make `toggleStep`, `setStep` and
`getStep` complete no-ops: state (grid and index) unchanged, no
`scheduleNote` calls, and the value-returning operations return
`false`.  (All operations are total functions here, so none can
throw.) -/
theorem out_of_range_noop (s : Sequencer) (row step : Int) (state : Bool)
    (h : ¬(0 ≤ row ∧ row < (numRows : Int) ∧ 0 ≤ step ∧ step < (numSteps : Int))) :
    s.toggleStep row step = (false, s, []) ∧
      s.setStep row step state = s ∧
      s.getStep row step = false := by
  unfold Sequencer.toggleStep Sequencer.setStep Sequencer.getStep
  rw [if_neg h, if_neg h, if_neg h]
  exact ⟨rfl, rfl, rfl⟩

/-- Witness for C8 at `row = -1`, `step = 20`. -/
theorem out_of_range_noop_witness :
    ¬(0 ≤ (-1 : Int) ∧ (-1 : Int) < (numRows : Int) ∧ 0 ≤ (20 : Int) ∧
        (20 : Int) < (numSteps : Int)) ∧
      ((Sequencer.mkSequencer AudioEngine.mkEngine).toggleStep (-1) 20
          = (false, Sequencer.mkSequencer AudioEngine.mkEngine, []) ∧
        (Sequencer.mkSequencer AudioEngine.mkEngine).setStep (-1) 20 true
          = Sequencer.mkSequencer AudioEngine.mkEngine ∧
        (Sequencer.mkSequencer AudioEngine.mkEngine).getStep (-1) 20 = false) :=
  ⟨by decide,
    out_of_range_noop (Sequencer.mkSequencer AudioEngine.mkEngine) (-1) 20 true (by decide)⟩

/-- C7: for an in-range cell, if the sequencer is playing, the toggled
step is the currently playing step and the cell just became active,
`toggleStep` makes exactly one immediate `scheduleNote(row, Tone.now())`
call; if the cell became inactive or the step is not the current one,
no immediate call is made.  A cell that became active also joins the
index entry for its step, so it fires again on later loop passes. -/
theorem toggleStep_immediate_trigger (s : Sequencer) (row step : Int)
    (h : 0 ≤ row ∧ row < (numRows : Int) ∧ 0 ≤ step ∧ step < (numSteps : Int)) :
    (s.isPlaying = true ∧ s.currentStep = step ∧ (s.toggleStep row step).1 = true →
        (s.toggleStep row step).2.2 = [(row.toNat, Time.now)]) ∧
      ((s.toggleStep row step).1 = false ∨ s.currentStep ≠ step →
        (s.toggleStep row step).2.2 = []) ∧
      ((s.toggleStep row step).1 = true →
        row.toNat ∈ (s.toggleStep row step).2.1.activeStepsCache step.toNat) := by
  unfold Sequencer.toggleStep
  rw [if_pos h]
  dsimp only
  refine ⟨?_, ?_, ?_⟩
  · rintro ⟨hp, hc, hv⟩
    rw [if_pos ⟨hp, hc, hv⟩]
  · rintro (hv | hc)
    · rw [if_neg]
      rintro ⟨-, -, hg⟩
      rw [hv] at hg
      exact Bool.false_ne_true hg
    · rw [if_neg]
      rintro ⟨-, hc', -⟩
      exact hc hc'
  · intro hv
    rw [mem_updateActiveStepCache, if_pos ⟨rfl, rfl⟩]
    exact hv

/-- Witness for C7: the spec's own scenario — playing at step 7 (after
`start()` and eight `onStep` calls), toggling cell `(2,7)` on. -/
theorem toggleStep_immediate_trigger_witness :
    (0 ≤ (2 : Int) ∧ (2 : Int) < (numRows : Int) ∧ 0 ≤ (7 : Int) ∧
        (7 : Int) < (numSteps : Int)) ∧
      (((iterOnStep (Sequencer.mkSequencer AudioEngine.mkEngine).start Time.now 8).1.isPlaying
            = true ∧
          (iterOnStep (Sequencer.mkSequencer AudioEngine.mkEngine).start
              Time.now 8).1.currentStep = 7 ∧
          ((iterOnStep (Sequencer.mkSequencer AudioEngine.mkEngine).start
              Time.now 8).1.toggleStep 2 7).1 = true →
          ((iterOnStep (Sequencer.mkSequencer AudioEngine.mkEngine).start
              Time.now 8).1.toggleStep 2 7).2.2 = [((2 : Int).toNat, Time.now)]) ∧
        (((iterOnStep (Sequencer.mkSequencer AudioEngine.mkEngine).start
              Time.now 8).1.toggleStep 2 7).1 = false ∨
            (iterOnStep (Sequencer.mkSequencer AudioEngine.mkEngine).start
              Time.now 8).1.currentStep ≠ 7 →
          ((iterOnStep (Sequencer.mkSequencer AudioEngine.mkEngine).start
              Time.now 8).1.toggleStep 2 7).2.2 = []) ∧
        (((iterOnStep (Sequencer.mkSequencer AudioEngine.mkEngine).start
              Time.now 8).1.toggleStep 2 7).1 = true →
          (2 : Int).toNat ∈ ((iterOnStep (Sequencer.mkSequencer AudioEngine.mkEngine).start
              Time.now 8).1.toggleStep 2 7).2.1.activeStepsCache (7 : Int).toNat)) :=
  ⟨by decide,
    toggleStep_immediate_trigger
      (iterOnStep (Sequencer.mkSequencer AudioEngine.mkEngine).start Time.now 8).1
      2 7 (by decide)⟩

theorem setCell_cancel (g : Nat → Nat → Bool) (row step : Nat) (u v : Bool)
    (hv : v = g row step) :
    Sequencer.setCell (Sequencer.setCell g row step u) row step v = g := by
  funext a b
  unfold Sequencer.setCell
  by_cases hab : a = row ∧ b = step
  · rw [if_pos hab, hv, hab.1, hab.2]
  · rw [if_neg hab, if_neg hab]

/-- C9: toggling the same in-range cell twice restores the grid exactly
and restores index membership everywhere; the first call returns the
negation of the original cell value and the second call returns the
original value.  (Requires that cell's index entry to agree with the
grid beforehand, which holds in every reachable state by the C1
invariant.) -/
theorem toggleStep_twice_restores (s : Sequencer) (row step : Int)
    (h : 0 ≤ row ∧ row < (numRows : Int) ∧ 0 ≤ step ∧ step < (numSteps : Int))
    (hcell : row.toNat ∈ s.activeStepsCache step.toNat ↔ s.grid row.toNat step.toNat = true) :
    (s.toggleStep row step).1 = !(s.grid row.toNat step.toNat) ∧
      ((s.toggleStep row step).2.1.toggleStep row step).1 = s.grid row.toNat step.toNat ∧
      ((s.toggleStep row step).2.1.toggleStep row step).2.1.grid = s.grid ∧
      (∀ r st,
        r ∈ ((s.toggleStep row step).2.1.toggleStep row step).2.1.activeStepsCache st ↔
          r ∈ s.activeStepsCache st) := by
  unfold Sequencer.toggleStep
  rw [if_pos h, if_pos h]
  dsimp only
  have hg1 : Sequencer.setCell s.grid row.toNat step.toNat (!(s.grid row.toNat step.toNat))
      row.toNat step.toNat = !(s.grid row.toNat step.toNat) := by
    rw [setCell_apply, if_pos ⟨rfl, rfl⟩]
  have hval : (!(Sequencer.setCell s.grid row.toNat step.toNat
      (!(s.grid row.toNat step.toNat)) row.toNat step.toNat)) = s.grid row.toNat step.toNat := by
    rw [hg1, Bool.not_not]
  have hgrid := setCell_cancel s.grid row.toNat step.toNat
    (!(s.grid row.toNat step.toNat))
    (!(Sequencer.setCell s.grid row.toNat step.toNat
      (!(s.grid row.toNat step.toNat)) row.toNat step.toNat)) hval
  refine ⟨hg1, ?_, hgrid, ?_⟩
  · rw [setCell_apply, if_pos ⟨rfl, rfl⟩, hg1, Bool.not_not]
  · intro r st
    rw [mem_updateActiveStepCache, mem_updateActiveStepCache]
    by_cases hcond : st = step.toNat ∧ r = row.toNat
    · rw [if_pos hcond]
      have : Sequencer.setCell
          (Sequencer.setCell s.grid row.toNat step.toNat (!(s.grid row.toNat step.toNat)))
          row.toNat step.toNat
          (!(Sequencer.setCell s.grid row.toNat step.toNat
            (!(s.grid row.toNat step.toNat)) row.toNat step.toNat))
          row.toNat step.toNat = s.grid row.toNat step.toNat := by
        rw [hgrid]
      rw [this, hcond.1, hcond.2]
      exact hcell.symm
    · rw [if_neg hcond, if_neg hcond]

/-- Witness for C9 at cell `(2,7)` of a sequencer where that cell was
set to true by `setStep` (so its index entry agrees with the grid). -/
theorem toggleStep_twice_restores_witness :
    (0 ≤ (2 : Int) ∧ (2 : Int) < (numRows : Int) ∧ 0 ≤ (7 : Int) ∧
        (7 : Int) < (numSteps : Int)) ∧
      ((2 : Int).toNat ∈ ((Sequencer.mkSequencer AudioEngine.mkEngine).setStep 2 7
            true).activeStepsCache (7 : Int).toNat ↔
        ((Sequencer.mkSequencer AudioEngine.mkEngine).setStep 2 7 true).grid
          (2 : Int).toNat (7 : Int).toNat = true) ∧
      ((((Sequencer.mkSequencer AudioEngine.mkEngine).setStep 2 7 true).toggleStep 2 7).1
          = !(((Sequencer.mkSequencer AudioEngine.mkEngine).setStep 2 7 true).grid
              (2 : Int).toNat (7 : Int).toNat)) ∧
      (((((Sequencer.mkSequencer AudioEngine.mkEngine).setStep 2 7
              true).toggleStep 2 7).2.1.toggleStep 2 7).1
          = ((Sequencer.mkSequencer AudioEngine.mkEngine).setStep 2 7 true).grid
              (2 : Int).toNat (7 : Int).toNat) ∧
      (((((Sequencer.mkSequencer AudioEngine.mkEngine).setStep 2 7
              true).toggleStep 2 7).2.1.toggleStep 2 7).2.1.grid
          = ((Sequencer.mkSequencer AudioEngine.mkEngine).setStep 2 7 true).grid) ∧
      ((2 : Int).toNat ∈ ((((Sequencer.mkSequencer AudioEngine.mkEngine).setStep 2 7
              true).toggleStep 2 7).2.1.toggleStep 2 7).2.1.activeStepsCache (7 : Int).toNat ↔
        (2 : Int).toNat ∈ ((Sequencer.mkSequencer AudioEngine.mkEngine).setStep 2 7
          true).activeStepsCache (7 : Int).toNat) :=
  have happ := toggleStep_twice_restores
    ((Sequencer.mkSequencer AudioEngine.mkEngine).setStep 2 7 true) 2 7
    (by decide) (by decide)
  ⟨by decide, by decide, happ.1, happ.2.1, happ.2.2.1,
    happ.2.2.2 (2 : Int).toNat (7 : Int).toNat⟩

/-- C5 counterexample: calling `start()` on a freshly constructed
sequencer whose engine has not finished initializing does set the
sequencer's `isPlaying` flag to `true` (while `currentStep` stays `-1`
and the engine, transport included, is untouched), so the transport
does not remain STOPPED as the claim requires, and no failure is
reported. -/
theorem start_before_init_cex :
    (Sequencer.mkSequencer AudioEngine.mkEngine).start.isPlaying = true ∧
      (Sequencer.mkSequencer AudioEngine.mkEngine).start.currentStep = -1 ∧
      (Sequencer.mkSequencer AudioEngine.mkEngine).start.engine = AudioEngine.mkEngine ∧
      AudioEngine.mkEngine.initialized = false := by
  refine ⟨rfl, rfl, ?_, rfl⟩
  decide

/-- C5 amended: `start()` before initialization does not crash and the
audio engine ignores it (engine state, transport included, unchanged)
and `currentStep` is unchanged, but the sequencer's `isPlaying` flag is
unconditionally set to `true` and no failure is reported to the
caller. -/
theorem start_before_init_behavior (s : Sequencer)
    (h : s.engine.initialized = false) :
    s.start.engine = s.engine ∧ s.start.currentStep = s.currentStep ∧
      s.start.isPlaying = true := by
  refine ⟨?_, rfl, rfl⟩
  show s.engine.start = s.engine
  unfold AudioEngine.start
  rw [h]
  rfl

/-- Witness for C5's amended statement at the fresh sequencer. -/
theorem start_before_init_behavior_witness :
    (Sequencer.mkSequencer AudioEngine.mkEngine).engine.initialized = false ∧
      ((Sequencer.mkSequencer AudioEngine.mkEngine).start.engine
          = (Sequencer.mkSequencer AudioEngine.mkEngine).engine ∧
        (Sequencer.mkSequencer AudioEngine.mkEngine).start.currentStep
          = (Sequencer.mkSequencer AudioEngine.mkEngine).currentStep ∧
        (Sequencer.mkSequencer AudioEngine.mkEngine).start.isPlaying = true) :=
  ⟨rfl, start_before_init_behavior (Sequencer.mkSequencer AudioEngine.mkEngine) rfl⟩

/-- C6 counterexample: on an initialized engine holding the default
tempo 120, `setTempo(-5)` stores `-5` as the tempo (and pushes it to
the transport): the non-positive value is not rejected and the
previous tempo is not retained. -/
theorem setTempo_no_validation_cex :
    (AudioEngine.mkEngine.initDone).tempo = 120 ∧
      ((Sequencer.mkSequencer AudioEngine.mkEngine.initDone).setTempo
          (-5)).engine.tempo = -5 ∧
      ((Sequencer.mkSequencer AudioEngine.mkEngine.initDone).setTempo
          (-5)).engine.transportBpm = -5 := by
  refine ⟨rfl, ?_, ?_⟩ <;> decide

/-- C6 amended: `setTempo` performs no validation at all: on an
initialized engine any bpm value — non-positive included — replaces
the stored tempo and the transport bpm; on an uninitialized engine the
call is silently ignored and the previous tempo retained.  No error is
ever signaled to the caller. -/
theorem setTempo_forwards_bpm (s : Sequencer) (bpm : Int) :
    (s.engine.initialized = true →
        (s.setTempo bpm).engine.tempo = bpm ∧
          (s.setTempo bpm).engine.transportBpm = bpm) ∧
      (s.engine.initialized = false → s.setTempo bpm = s) := by
  constructor
  · intro h
    unfold Sequencer.setTempo AudioEngine.setTempo
    rw [h]
    exact ⟨rfl, rfl⟩
  · intro h
    unfold Sequencer.setTempo AudioEngine.setTempo
    rw [h]
    rfl

/-- Witness for C6's amended statement: initialized engine,
`bpm = -5` is stored; uninitialized engine, the call is a no-op. -/
theorem setTempo_forwards_bpm_witness :
    (Sequencer.mkSequencer AudioEngine.mkEngine.initDone).engine.initialized = true ∧
      (((Sequencer.mkSequencer AudioEngine.mkEngine.initDone).setTempo (-5)).engine.tempo
          = -5 ∧
        ((Sequencer.mkSequencer AudioEngine.mkEngine.initDone).setTempo
            (-5)).engine.transportBpm = -5) ∧
      (Sequencer.mkSequencer AudioEngine.mkEngine).engine.initialized = false ∧
      (Sequencer.mkSequencer AudioEngine.mkEngine).setTempo (-5)
        = Sequencer.mkSequencer AudioEngine.mkEngine :=
  ⟨rfl,
    (setTempo_forwards_bpm (Sequencer.mkSequencer AudioEngine.mkEngine.initDone) (-5)).1 rfl,
    rfl,
    (setTempo_forwards_bpm (Sequencer.mkSequencer AudioEngine.mkEngine) (-5)).2 rfl⟩

/-- Witness for C2 at the freshly constructed sequencer and `k = 18`. -/
theorem onStep_sequence_from_stopped_witness :
    (Sequencer.mkSequencer AudioEngine.mkEngine).currentStep = -1 ∧
      ((iterOnStep (Sequencer.mkSequencer AudioEngine.mkEngine) Time.now 18).1.currentStep
          = ((18 : Int) - 1).tmod (numSteps : Int) ∧
        (iterOnStep (Sequencer.mkSequencer AudioEngine.mkEngine) Time.now 18).2
          = (iterOnStep (Sequencer.mkSequencer AudioEngine.mkEngine) Time.now (18 - 1)).2
              ++ [((18 : Int) - 1).tmod (numSteps : Int)] ∧
        (iterOnStep (Sequencer.mkSequencer AudioEngine.mkEngine) Time.now 18).2
          = (List.range 18).map (fun i : Nat => (i : Int).tmod (numSteps : Int))) :=
  ⟨rfl, onStep_sequence_from_stopped (Sequencer.mkSequencer AudioEngine.mkEngine)
    Time.now 18 rfl (by norm_num)⟩

/-- C3 counterexample: an 8-row pattern whose row 1 has only 1 step
(wrong step count) is not rejected wholesale: its well-formed row 0 is
still copied, changing grid cell `(0,0)` from false to true. -/
theorem setPattern_partial_application_cex :
    (Sequencer.mkSequencer AudioEngine.mkEngine).grid 0 0 = false ∧
      (JRow.arr (List.replicate 16 true) :: JRow.arr [true] ::
          List.replicate 6 (JRow.arr (List.replicate 16 false))).length = numRows ∧
      ([true] : List Bool).length ≠ numSteps ∧
      ((Sequencer.mkSequencer AudioEngine.mkEngine).setPattern
          (JPattern.arr (JRow.arr (List.replicate 16 true) :: JRow.arr [true] ::
            List.replicate 6 (JRow.arr (List.replicate 16 false))))).grid 0 0 = true := by
  exact ⟨rfl, by decide, by decide, by decide⟩

/-- C3 amended: `setPattern` checks the row count wholesale but the
step count only row by row.  With a correct top-level row count, every
row of exactly `numSteps` cells is copied into the grid and every
mismatched (or non-array) row keeps its previous contents — a pattern
with some mismatched rows is applied partially, not rejected wholesale.
The index is rebuilt consistently with the resulting grid. -/
theorem setPattern_rowwise_semantics (s : Sequencer) (rows : List JRow)
    (hlen : rows.length = numRows) :
    (∀ r st,
        (s.setPattern (JPattern.arr rows)).grid r st =
          match rows.getD r JRow.notArr with
          | JRow.arr cells =>
            if cells.length = numSteps then cells.getD st false else s.grid r st
          | JRow.notArr => s.grid r st) ∧
      (∀ r st, r < numRows → st < numSteps →
        (r ∈ (s.setPattern (JPattern.arr rows)).activeStepsCache st ↔
          (s.setPattern (JPattern.arr rows)).grid r st = true)) := by
  unfold Sequencer.setPattern
  dsimp only
  rw [if_pos hlen]
  constructor
  · intro r st
    rfl
  · intro r st hr hst
    rw [mem_updateActiveStepsCache]
    constructor
    · rintro ⟨-, -, hg⟩
      exact hg
    · intro hg
      exact ⟨hst, hr, hg⟩

/-- Witness for C3's amended statement on the mixed pattern of the
counterexample: row 0 (well-formed) is copied, row 1 (wrong length) is
skipped, and the rebuilt index agrees with the grid at `(1,4)`. -/
theorem setPattern_rowwise_semantics_witness :
    (JRow.arr (List.replicate 16 true) :: JRow.arr [true] ::
        List.replicate 6 (JRow.arr (List.replicate 16 false))).length = numRows ∧
      ((Sequencer.mkSequencer AudioEngine.mkEngine).setPattern
          (JPattern.arr (JRow.arr (List.replicate 16 true) :: JRow.arr [true] ::
            List.replicate 6 (JRow.arr (List.replicate 16 false))))).grid 0 0 =
        (match (JRow.arr (List.replicate 16 true) :: JRow.arr [true] ::
            List.replicate 6 (JRow.arr (List.replicate 16 false))).getD 0 JRow.notArr with
          | JRow.arr cells =>
            if cells.length = numSteps then cells.getD 0 false
            else (Sequencer.mkSequencer AudioEngine.mkEngine).grid 0 0
          | JRow.notArr => (Sequencer.mkSequencer AudioEngine.mkEngine).grid 0 0) ∧
      ((Sequencer.mkSequencer AudioEngine.mkEngine).setPattern
          (JPattern.arr (JRow.arr (List.replicate 16 true) :: JRow.arr [true] ::
            List.replicate 6 (JRow.arr (List.replicate 16 false))))).grid 1 4 =
        (match (JRow.arr (List.replicate 16 true) :: JRow.arr [true] ::
            List.replicate 6 (JRow.arr (List.replicate 16 false))).getD 1 JRow.notArr with
          | JRow.arr cells =>
            if cells.length = numSteps then cells.getD 4 false
            else (Sequencer.mkSequencer AudioEngine.mkEngine).grid 1 4
          | JRow.notArr => (Sequencer.mkSequencer AudioEngine.mkEngine).grid 1 4) ∧
      (1 ∈ ((Sequencer.mkSequencer AudioEngine.mkEngine).setPattern
            (JPattern.arr (JRow.arr (List.replicate 16 true) :: JRow.arr [true] ::
              List.replicate 6 (JRow.arr (List.replicate 16 false))))).activeStepsCache 4 ↔
        ((Sequencer.mkSequencer AudioEngine.mkEngine).setPattern
            (JPattern.arr (JRow.arr (List.replicate 16 true) :: JRow.arr [true] ::
              List.replicate 6 (JRow.arr (List.replicate 16 false))))).grid 1 4 = true) :=
  have happ := setPattern_rowwise_semantics (Sequencer.mkSequencer AudioEngine.mkEngine)
    (JRow.arr (List.replicate 16 true) :: JRow.arr [true] ::
      List.replicate 6 (JRow.arr (List.replicate 16 false))) (by decide)
  ⟨by decide, happ.1 0 0, happ.1 1 4, happ.2 1 4 (by decide) (by decide)⟩

/-- C4 counterexample: activate `(5,3)` then `(2,3)` with `toggleStep`,
start, and let `onStep` advance to step 3: the instrument triggers fire
for rows `[5, 2]` — the activation order, which is not ascending
row-index order. -/
theorem onStep_trigger_order_cex :
    ((((iterOnStep
            ((((Sequencer.mkSequencer AudioEngine.mkEngine).toggleStep 5 3).2.1.toggleStep
              2 3).2.1.start)
            Time.now 3).1).onStep Time.now).2.1).map Prod.fst = [5, 2] ∧
      ¬ List.Sorted (· < ·) [5, 2] := by
  exact ⟨by decide, by decide⟩

theorem sorted_updateActiveStepsCache (g : Nat → Nat → Bool) (st : Nat) :
    List.Sorted (· < ·) (Sequencer.updateActiveStepsCache g st) := by
  unfold Sequencer.updateActiveStepsCache
  by_cases h : st < numSteps
  · rw [if_pos h]
    exact (List.sorted_lt_range numRows).filter _
  · rw [if_neg h]
    exact List.sorted_nil

theorem map_fst_map_pair (l : List Nat) (t : Time) :
    (l.map fun row => (row, t)).map Prod.fst = l := by
  induction l with
  | nil => rfl
  | cons a l ih => simp [ih]

theorem onStep_fired_rows (s : Sequencer) (t : Time) :
    ((s.onStep t).2.1).map Prod.fst
      = s.activeStepsCache ((s.currentStep + 1).tmod (numSteps : Int)).toNat := by
  show ((s.activeStepsCache _).map fun row => (row, t)).map Prod.fst = _
  exact map_fst_map_pair _ t

theorem setPattern_cache_sorted (s : Sequencer) (rows : List JRow)
    (hlen : rows.length = numRows) (st : Nat) :
    List.Sorted (· < ·) ((s.setPattern (JPattern.arr rows)).activeStepsCache st) := by
  unfold Sequencer.setPattern
  dsimp only
  rw [if_pos hlen]
  dsimp only
  exact sorted_updateActiveStepsCache _ st

/-- C4 amended: `onStep` fires a step's triggers in exactly the order
the rows appear in that step's index entry (deterministic, but the
entry order is activation order for rows appended by
`toggleStep`/`setStep`); when the index was last fully rebuilt — e.g.
by a successful `setPattern` — the triggers do fire in ascending
row-index order. -/
theorem onStep_trigger_order (s : Sequencer) (rows : List JRow) (t : Time)
    (hlen : rows.length = numRows) :
    ((s.onStep t).2.1).map Prod.fst
        = s.activeStepsCache ((s.currentStep + 1).tmod (numSteps : Int)).toNat ∧
      List.Sorted (· < ·)
        ((((s.setPattern (JPattern.arr rows)).onStep t).2.1).map Prod.fst) := by
  refine ⟨onStep_fired_rows s t, ?_⟩
  rw [onStep_fired_rows]
  exact setPattern_cache_sorted s rows hlen _

/-- Witness for C4's amended statement at an all-true 8×16 pattern. -/
theorem onStep_trigger_order_witness :
    (List.replicate 8 (JRow.arr (List.replicate 16 true))).length = numRows ∧
      ((((Sequencer.mkSequencer AudioEngine.mkEngine).onStep Time.now).2.1).map Prod.fst
          = (Sequencer.mkSequencer AudioEngine.mkEngine).activeStepsCache
              (((Sequencer.mkSequencer AudioEngine.mkEngine).currentStep + 1).tmod
                (numSteps : Int)).toNat ∧
        List.Sorted (· < ·)
          (((((Sequencer.mkSequencer AudioEngine.mkEngine).setPattern
              (JPattern.arr (List.replicate 8 (JRow.arr
                (List.replicate 16 true))))).onStep Time.now).2.1).map Prod.fst)) :=
  ⟨by decide,
    onStep_trigger_order (Sequencer.mkSequencer AudioEngine.mkEngine)
      (List.replicate 8 (JRow.arr (List.replicate 16 true))) Time.now (by decide)⟩
